import Mathlib

/-!
Verification development for the MovieGo JSON API.

This file shallowly embeds the request-processing pipeline
(cmd/api/middleware.go, cmd/api/routes.go), the optimistic-concurrency
data-access layer (internal/data/movies.go, the users and tokens models)
and the credential/token model of the repository, and proves properties
about them.  Machine integers are modelled as Nat/Int with explicit
reductions modulo 2^32 where the Go code works on 32-bit words; fallible
operations return Except; the relational store is modelled as in-memory
lists of rows with the semantics of the SQL statements the code issues.
-/

namespace MovieGo

/-! ### 32-bit word helpers

The Go code (via crypto/sha256) works on 32-bit words.  We implement the
bitwise operations arithmetically, by structural recursion on a 32-step
fuel, so that every definition reduces in the kernel. -/

/-- Combine two natural numbers bit by bit with a boolean function, over
`w` low bits. -/
def bitZip (f : Bool → Bool → Bool) : Nat → Nat → Nat → Nat
  | 0, _, _ => 0
  | w + 1, a, b =>
      (if f (a % 2 = 1) (b % 2 = 1) then 1 else 0) + 2 * bitZip f w (a / 2) (b / 2)

/-- 32-bit exclusive or. -/
def xor32 (a b : Nat) : Nat := bitZip Bool.xor 32 a b

/-- 32-bit conjunction. -/
def and32 (a b : Nat) : Nat := bitZip Bool.and 32 a b

/-- 32-bit complement. -/
def not32 (a : Nat) : Nat := bitZip (fun x _ => !x) 32 a 0

/-- Rotate a 32-bit word right by `k` bits. -/
def rotr32 (k a : Nat) : Nat := (a / 2 ^ k + a % 2 ^ k * 2 ^ (32 - k)) % 2 ^ 32

/-- Logical right shift of a 32-bit word. -/
def shr32 (k a : Nat) : Nat := a / 2 ^ k

/-! ### SHA-256 (model of Go crypto/sha256.Sum256)

The token model hashes token plaintexts with SHA-256 before storing or
looking them up.  crypto/sha256 is an external standard-library
primitive; we embed the full FIPS 180-4 algorithm over byte lists. -/

/-- The sixty-four SHA-256 round constants (FIPS 180-4, written in
decimal). -/
def sha256K : List Nat :=
  [1116352408, 1899447441, 3049323471, 3921009573, 961987163, 1508970993,
   2453635748, 2870763221, 3624381080, 310598401, 607225278, 1426881987,
   1925078388, 2162078206, 2614888103, 3248222580, 3835390401, 4022224774,
   264347078, 604807628, 770255983, 1249150122, 1555081692, 1996064986,
   2554220882, 2821834349, 2952996808, 3210313671, 3336571891, 3584528711,
   113926993, 338241895, 666307205, 773529912, 1294757372, 1396182291,
   1695183700, 1986661051, 2177026350, 2456956037, 2730485921, 2820302411,
   3259730800, 3345764771, 3516065817, 3600352804, 4094571909, 275423344,
   430227734, 506948616, 659060556, 883997877, 958139571, 1322822218,
   1537002063, 1747873779, 1955562222, 2024104815, 2227730452, 2361852424,
   2428436474, 2756734187, 3204031479, 3329325298]

/-- The eight-word SHA-256 working state. -/
structure Words8 where
  a : Nat
  b : Nat
  c : Nat
  d : Nat
  e : Nat
  f : Nat
  g : Nat
  h : Nat
deriving DecidableEq

/-- SHA-256 initial hash state. -/
def sha256H0 : Words8 :=
  ⟨1779033703, 3144134277, 1013904242, 2773480762,
   1359893119, 2600822924, 528734635, 1541459225⟩

def bigSigma0 (x : Nat) : Nat := xor32 (rotr32 2 x) (xor32 (rotr32 13 x) (rotr32 22 x))

def bigSigma1 (x : Nat) : Nat := xor32 (rotr32 6 x) (xor32 (rotr32 11 x) (rotr32 25 x))

def smallSigma0 (x : Nat) : Nat := xor32 (rotr32 7 x) (xor32 (rotr32 18 x) (shr32 3 x))

def smallSigma1 (x : Nat) : Nat := xor32 (rotr32 17 x) (xor32 (rotr32 19 x) (shr32 10 x))

def chFn (e f g : Nat) : Nat := xor32 (and32 e f) (and32 (not32 e) g)

def majFn (a b c : Nat) : Nat := xor32 (and32 a b) (xor32 (and32 a c) (and32 b c))

/-- Extend the sixteen-word message block to the sixty-four-word schedule
by `k` further steps. -/
def extendSchedule : Nat → List Nat → List Nat
  | 0, ws => ws
  | k + 1, ws =>
      let i := ws.length
      extendSchedule k (ws ++
        [(smallSigma1 (ws.getD (i - 2) 0) + ws.getD (i - 7) 0 +
          smallSigma0 (ws.getD (i - 15) 0) + ws.getD (i - 16) 0) % 2 ^ 32])

/-- One SHA-256 compression round; `kw` is the round constant plus the
schedule word. -/
def sha256Round (s : Words8) (kw : Nat) : Words8 :=
  let t1 := (s.h + bigSigma1 s.e + chFn s.e s.f s.g + kw) % 2 ^ 32
  let t2 := (bigSigma0 s.a + majFn s.a s.b s.c) % 2 ^ 32
  ⟨(t1 + t2) % 2 ^ 32, s.a, s.b, s.c, (s.d + t1) % 2 ^ 32, s.e, s.f, s.g⟩

/-- Group a byte list into big-endian 32-bit words. -/
def toWords : List Nat → List Nat
  | a :: b :: c :: d :: rest => (((a * 256 + b) * 256 + c) * 256 + d) :: toWords rest
  | _ => []

/-- Compress one 64-byte block into the running hash state. -/
def compressBlock (h0 : Words8) (block : List Nat) : Words8 :=
  let ws := extendSchedule 48 (toWords block)
  let s := (ws.zip sha256K).foldl (fun st p => sha256Round st ((p.1 + p.2) % 2 ^ 32)) h0
  ⟨(h0.a + s.a) % 2 ^ 32, (h0.b + s.b) % 2 ^ 32, (h0.c + s.c) % 2 ^ 32,
   (h0.d + s.d) % 2 ^ 32, (h0.e + s.e) % 2 ^ 32, (h0.f + s.f) % 2 ^ 32,
   (h0.g + s.g) % 2 ^ 32, (h0.h + s.h) % 2 ^ 32⟩

/-- Big-endian eight-byte encoding of a length in bits. -/
def lengthBytes (n : Nat) : List Nat :=
  (List.range 8).map (fun i => n / 2 ^ (8 * (7 - i)) % 256)

/-- SHA-256 padding: 0x80, zeros to 56 mod 64, then the 64-bit length. -/
def sha256Pad (msg : List Nat) : List Nat :=
  msg ++ [0x80] ++ List.replicate ((119 - msg.length % 64) % 64) 0 ++
    lengthBytes (8 * msg.length)

/-- Split a list into chunks of `n` elements (fuel-driven). -/
def chunkListAux : Nat → Nat → List α → List (List α)
  | 0, _, _ => []
  | _, _, [] => []
  | fuel + 1, n, l => l.take n :: chunkListAux fuel n (l.drop n)

def chunkList (n : Nat) (l : List α) : List (List α) := chunkListAux l.length n l

/-- Split a 32-bit word into four big-endian bytes. -/
def wordBytes (w : Nat) : List Nat :=
  [w / 2 ^ 24 % 256, w / 2 ^ 16 % 256, w / 2 ^ 8 % 256, w % 256]

/-- SHA-256 digest of a byte list: the 32-byte hash. -/
def sha256Bytes (msg : List Nat) : List Nat :=
  let hs := (chunkList 64 (sha256Pad msg)).foldl compressBlock sha256H0
  wordBytes hs.a ++ wordBytes hs.b ++ wordBytes hs.c ++ wordBytes hs.d ++
    wordBytes hs.e ++ wordBytes hs.f ++ wordBytes hs.g ++ wordBytes hs.h

/-- The UTF-8 bytes of a string, as Go obtains them; the strings hashed by
the code are ASCII, where the bytes are the character codes. -/
def strBytes (s : String) : List Nat := s.data.map Char.toNat

/-! ### Base32 (model of Go encoding/base32 StdEncoding, no padding)

generateToken encodes 16 random bytes with
base32.StdEncoding.WithPadding(base32.NoPadding); the standard base32
encoding emits the big-endian 5-bit groups of the byte stream, the last
group zero-filled on the right, using the RFC 4648 alphabet. -/

/-- RFC 4648 base32 alphabet, as used by Go base32.StdEncoding. -/
def b32Alphabet : List Char := "ABCDEFGHIJKLMNOPQRSTUVWXYZ234567".toList

/-- Encode up to five bytes as their big-endian 5-bit groups, the final
group zero-filled: `r` bytes yield `(8 r + 4) / 5` digits. -/
def b32Tail (bs : List Nat) : List Nat :=
  let bits := 8 * bs.length
  let digits := (bits + 4) / 5
  let v := (bs.foldl (fun acc b => acc * 256 + b) 0) * 2 ^ (5 * digits - bits)
  (List.range digits).map (fun i => v / 32 ^ (digits - 1 - i) % 32)

/-- Digit stream of the base32 encoding: full five-byte groups, then the
remainder. -/
def base32Groups : List Nat → List Nat
  | a :: b :: c :: d :: e :: rest => b32Tail [a, b, c, d, e] ++ base32Groups rest
  | rest => b32Tail rest

/-- Unpadded base32 encoding of a byte list. -/
def base32NoPad (bs : List Nat) : String :=
  String.mk ((base32Groups bs).map (fun d => b32Alphabet.getD d 'A'))

/-! ### Go strconv and net helpers -/

/-- The digit alphabet of Go strconv formatting. -/
def goDigits : List Char := "0123456789abcdefghijklmnopqrstuvwxyz".toList

def goFormatBase32Aux : Nat → Nat → List Char
  | 0, _ => []
  | _, 0 => []
  | fuel + 1, n => goFormatBase32Aux fuel (n / 32) ++ [goDigits.getD (n % 32) '0']

/-- Model of Go strconv.FormatInt(n, 32) for a non-negative argument: the
base-32 representation over the digits 0-9a-v. -/
def goFormatBase32 (n : Nat) : String :=
  if n = 0 then "0" else String.mk (goFormatBase32Aux n n)

/-- Model of Go net.SplitHostPort for the address forms the server sees:
split at the last colon, failing when there is none. -/
def splitHostPort (s : String) : Option (String × String) :=
  let cs := s.toList
  match cs.reverse.findIdx? (fun c => c = ':') with
  | none => none
  | some k =>
      let i := cs.length - 1 - k
      some (String.mk (cs.take i), String.mk (cs.drop (i + 1)))

/-! ### Data model: error taxonomy and rows

internal/data/models.go defines ErrRecordNotFound and ErrEditConflict;
the users model adds ErrDuplicateEmail.  otherFailure stands for any
other (I/O, timeout) error a store call can surface. -/

inductive DataErr where
  | recordNotFound
  | editConflict
  | duplicateEmail
  | otherFailure (msg : String)
deriving DecidableEq

/-- A row of the movies table (internal/data/movies.go Movie; the
database columns are non-null, so the pointer fields appear as plain
values). -/
structure MovieRow where
  id : Int
  createdAt : Int
  title : String
  year : Int
  runtime : Int
  genres : List String
  version : Nat
deriving DecidableEq

/-- A row of the users table (User struct of the users model). -/
structure UserRow where
  id : Int
  createdAt : Int
  name : String
  email : String
  passwordHash : List Nat
  activated : Bool
  version : Nat
deriving DecidableEq

/-- A row of the tokens table: exactly the four columns the INSERT
persists - hash, user_id, expiry, scope.  The plaintext has no column. -/
structure TokenRow where
  hash : List Nat
  userID : Int
  expiry : Int
  scope : String
deriving DecidableEq

/-- The in-memory Token value (tokens model Token struct). -/
structure Token where
  plaintext : String
  hash : List Nat
  userID : Int
  expiry : Int
  scope : String
deriving DecidableEq

def scopeActivation : String := "activation"

def scopeAuthentication : String := "authentication"

/-! ### Movie store (internal/data/movies.go)

Each method is the semantics of the SQL statement the Go method issues
against the movies table, with the Go-side guard branches. -/

/-- MovieModel.Get: reject ids below 1, then SELECT ... WHERE id = $1;
no row yields ErrRecordNotFound. -/
def movieGet (db : List MovieRow) (id : Int) : Except DataErr MovieRow :=
  if id < 1 then .error .recordNotFound
  else
    match db.find? (fun r => r.id == id) with
    | none => .error .recordNotFound
    | some r => .ok r

/-- MovieModel.Update: UPDATE ... SET fields, version = version + 1
WHERE id = $5 AND version = $6 RETURNING version; no matched row is
sql.ErrNoRows, reported as ErrEditConflict.  Returns the table after the
statement and the value scanned into movie.Version. -/
def movieUpdate (db : List MovieRow) (m : MovieRow) :
    List MovieRow × Except DataErr Nat :=
  if db.any (fun r => r.id == m.id && r.version == m.version) then
    (db.map (fun r =>
        if r.id == m.id && r.version == m.version then
          { r with title := m.title, year := m.year, runtime := m.runtime,
                   genres := m.genres, version := r.version + 1 }
        else r),
     .ok (m.version + 1))
  else (db, .error .editConflict)

/-- MovieModel.Delete: reject ids below 1, then DELETE ... WHERE id = $1;
zero affected rows is ErrRecordNotFound. -/
def movieDelete (db : List MovieRow) (id : Int) :
    List MovieRow × Except DataErr Unit :=
  if id < 1 then (db, .error .recordNotFound)
  else
    let remaining := db.filter (fun r => !(r.id == id))
    if remaining.length = db.length then (db, .error .recordNotFound)
    else (remaining, .ok ())

/-! ### User store (users model) -/

/-- UserModel.Update: UPDATE users SET name, email, password_hash,
activated, version = version + 1 WHERE id = $5 AND version = $6
RETURNING version; a unique violation on email is ErrDuplicateEmail and
sql.ErrNoRows is ErrEditConflict. -/
def userUpdate (db : List UserRow) (u : UserRow) :
    List UserRow × Except DataErr Nat :=
  if db.any (fun r => r.id == u.id && r.version == u.version) then
    if db.any (fun r => !(r.id == u.id) && r.email == u.email) then
      (db, .error .duplicateEmail)
    else
      (db.map (fun r =>
          if r.id == u.id && r.version == u.version then
            { r with name := u.name, email := u.email,
                     passwordHash := u.passwordHash,
                     activated := u.activated, version := r.version + 1 }
          else r),
       .ok (u.version + 1))
  else (db, .error .editConflict)

/-- UserModel.GetForToken: hash the plaintext with SHA-256 and SELECT the
user joined over tokens WHERE tokens.hash = $1 AND tokens.scope = $2
AND tokens.expiry > $3; no row is ErrRecordNotFound. -/
def userGetForToken (users : List UserRow) (tokens : List TokenRow)
    (tokenScope tokenPlaintext : String) (now : Int) : Except DataErr UserRow :=
  let tokenHash := sha256Bytes (strBytes tokenPlaintext)
  match tokens.find? (fun t =>
      t.hash == tokenHash && t.scope == tokenScope && decide (now < t.expiry)) with
  | none => .error .recordNotFound
  | some t =>
      match users.find? (fun u => u.id == t.userID) with
      | none => .error .recordNotFound
      | some u => .ok u

/-! ### Token model (tokens model file) -/

/-- generateToken: the token carries the caller's userID, expiry
now + ttl and scope; the plaintext is the unpadded base32 encoding of 16
bytes drawn from the CSPRNG (the bytes are a parameter here, the random
source being external), and the hash is the SHA-256 digest of the
plaintext. -/
def generateToken (randomBytes : List Nat) (now userID ttl : Int)
    (scope : String) : Token :=
  let plaintext := base32NoPad randomBytes
  { plaintext, hash := sha256Bytes (strBytes plaintext),
    userID, expiry := now + ttl, scope }

/-- TokenModel.Insert: INSERT INTO tokens (hash, user_id, expiry, scope).
Only those four fields are persisted. -/
def tokenInsert (db : List TokenRow) (t : Token) : List TokenRow :=
  db ++ [{ hash := t.hash, userID := t.userID, expiry := t.expiry, scope := t.scope }]

/-- TokenModel.New: generate a token, insert it, return both. -/
def tokenNew (db : List TokenRow) (randomBytes : List Nat)
    (now userID ttl : Int) (scope : String) : Token × List TokenRow :=
  let t := generateToken randomBytes now userID ttl scope
  (t, tokenInsert db t)

/-- TokenModel.DeleteAllForUser: DELETE FROM tokens WHERE scope = $1 AND
user_id = $2. -/
def tokenDeleteAllForUser (db : List TokenRow) (scope : String)
    (userID : Int) : List TokenRow :=
  db.filter (fun t => !(t.scope == scope && t.userID == userID))

/-- ValidateTokenPlaintext: the plaintext must be non-empty and 26 bytes
long (the validator records an error for each failed check; validity is
their conjunction). -/
def validateTokenPlaintext (t : String) : Bool :=
  (!(t == "")) && (t.length == 26)

/-! ### Permissions (internal/data/permissions.go) -/

/-- Permissions.Include: exact-match membership loop. -/
def permissionsInclude (p : List String) (code : String) : Bool :=
  p.any (fun c => code == c)

/-- PermissionModel.GetAllForUser: the capability codes related to the
user through the users_permissions relation. -/
def getAllForUser (perms : List (Int × String)) (userID : Int) : List String :=
  (perms.filter (fun pr => pr.1 == userID)).map (fun pr => pr.2)

/-! ### Password verification (users model password type)

bcrypt.CompareHashAndPassword is an external primitive
(golang.org/x/crypto/bcrypt); its three possible outcomes are the
abstraction boundary. -/

inductive BcryptOutcome where
  | matched
  | mismatch
  | failure (msg : String)
deriving DecidableEq

/-- password.Matches: bcrypt mismatch is the normal (false, nil); any
other comparison error propagates; success is (true, nil).  The pair
models the Go (bool, error) return. -/
def passwordMatches (cmp : BcryptOutcome) : Bool × Option String :=
  match cmp with
  | .mismatch => (false, none)
  | .failure e => (false, some e)
  | .matched => (true, none)

/-! ### Request pipeline (cmd/api/middleware.go, cmd/api/routes.go)

Each middleware is a Handler transformer exactly as in the Go code.  A
Handler consumes the application state and the request and produces the
new state plus either a response or a propagating panic (Except.error),
which only recoverPanic converts into a response.  Each middleware also
appends its stage tag to an instrumentation trace in the state - the
embedding of control reaching that middleware - used to state ordering
properties; the trace has no effect on any branch. -/

inductive Stage where
  | recovery
  | cors
  | rateLimit
  | authenticate
  | permGate
  | handler
  | metrics
deriving DecidableEq

/-- The user value stored in the request context: the distinguished
AnonymousUser pointer or a user loaded from the store (IsAnonymous is a
pointer comparison in Go, so the two cases are kept apart by
constructor). -/
inductive CtxUser where
  | anonymous
  | known (u : UserRow)
deriving DecidableEq

/-- User.IsAnonymous. -/
def ctxIsAnonymous : CtxUser → Bool
  | .anonymous => true
  | .known _ => false

/-- The Activated field read through the context pointer (the zero-value
AnonymousUser has Activated = false). -/
def ctxActivated : CtxUser → Bool
  | .anonymous => false
  | .known u => u.activated

/-- The ID field read through the context pointer (zero for
AnonymousUser). -/
def ctxID : CtxUser → Int
  | .anonymous => 0
  | .known u => u.id

/-- The terminal responses the pipeline can produce, one per response
helper of the error-helpers file plus the ordinary handler outcomes. -/
inductive Resp where
  | healthcheckInfo
  | handled (name : String)
  | preflightOK
  | serverError
  | notFoundResp
  | methodNotAllowed
  | rateLimitExceeded
  | invalidAuthToken
  | authenticationRequired
  | inactiveAccount
  | notPermitted
deriving DecidableEq

/-- The HTTP status code each response helper writes. -/
def Resp.status : Resp → Nat
  | .healthcheckInfo => 200
  | .handled _ => 200
  | .preflightOK => 200
  | .serverError => 500
  | .notFoundResp => 404
  | .methodNotAllowed => 405
  | .rateLimitExceeded => 429
  | .invalidAuthToken => 401
  | .authenticationRequired => 401
  | .inactiveAccount => 403
  | .notPermitted => 403

/-- The configuration surface the pipeline reads (main.go config). -/
structure Config where
  limiterEnabled : Bool
  limiterBurst : Nat
  trustedOrigins : List String
deriving DecidableEq

/-- A rate-limiter map entry: the token-bucket limiter (modelled by its
remaining burst tokens, golang.org/x/time/rate being external) and the
last-seen time. -/
structure ClientEntry where
  tokens : Nat
  lastSeen : Int
deriving DecidableEq

/-- The application state a request executes against. -/
structure St where
  cfg : Config
  users : List UserRow
  tokens : List TokenRow
  perms : List (Int × String)
  clients : List (String × ClientEntry)
  now : Int
  reqReceived : Nat
  respSent : Nat
  statusCounts : List (Nat × Nat)
  trace : List Stage
deriving DecidableEq

/-- An inbound request; header absence is the empty string, as returned
by Go Header.Get, and ctxUser is the request-context slot written by
contextSetUser (none before authenticate runs). -/
structure Req where
  method : String
  path : List String
  remoteAddr : String
  origin : String
  acrMethod : String
  authHeader : String
  ctxUser : Option CtxUser
deriving DecidableEq

/-- A handler result: the new state and either a response or a
propagating panic carrying its message. -/
abbrev HResult := St × Except String Resp

abbrev Handler := St → Req → HResult

/-- Append a stage tag to the instrumentation trace. -/
def mark (st : St) (s : Stage) : St := { st with trace := st.trace ++ [s] }

/-- contextGetUser: the typed accessor; none models its panic branch. -/
def contextGetUser (r : Req) : Option CtxUser := r.ctxUser

def panicMissingUser : String := "missing user value in request context"

/-- recoverPanic: any panic from downstream becomes the generic
internal-error response (with the connection marked non-reusable). -/
def recoverPanicMW (next : Handler) : Handler := fun st r =>
  let out := next (mark st .recovery) r
  match out.2 with
  | .error _ => (out.1, .ok .serverError)
  | .ok resp => (out.1, .ok resp)

/-- enableCORS: an Origin matching the trusted list gets the permissive
header; a matching preflight (OPTIONS with a requested method) is
answered immediately; everything else continues down the chain. -/
def enableCORSMW (next : Handler) : Handler := fun st r =>
  let st1 := mark st .cors
  if (!(r.origin == "")) && st1.cfg.trustedOrigins.contains r.origin then
    if r.method == "OPTIONS" && (!(r.acrMethod == "")) then (st1, .ok .preflightOK)
    else next st1 r
  else next st1 r

/-- Store a client entry under its address key. -/
def setClient (st : St) (ip : String) (e : ClientEntry) : St :=
  { st with clients := (ip, e) :: st.clients.filter (fun p => !(p.1 == ip)) }

/-- rateLimit: as written in the source, the per-client token-bucket
check runs when app.config.limiter.enabled is FALSE (the guard is
`if !app.config.limiter.enabled`); when the flag is true the whole check
is skipped.  A new client starts with a full burst bucket; Allow
consumes one token or reports exhaustion. -/
def rateLimitMW (next : Handler) : Handler := fun st r =>
  let st1 := mark st .rateLimit
  if !st1.cfg.limiterEnabled then
    match splitHostPort r.remoteAddr with
    | none => (st1, .ok .serverError)
    | some (ip, _) =>
        let e0 := (st1.clients.lookup ip).getD
          { tokens := st1.cfg.limiterBurst, lastSeen := st1.now }
        let e1 := { e0 with lastSeen := st1.now }
        if e1.tokens = 0 then (setClient st1 ip e1, .ok .rateLimitExceeded)
        else next (setClient st1 ip { e1 with tokens := e1.tokens - 1 }) r
  else next st1 r

/-- authenticate: no Authorization header stores AnonymousUser in the
context and proceeds; a malformed header or an invalid/unresolvable
token short-circuits with the invalid-token response; a resolved token
stores the owning user and proceeds. -/
def authenticateMW (next : Handler) : Handler := fun st r =>
  let st1 := mark st .authenticate
  if r.authHeader == "" then
    next st1 { r with ctxUser := some .anonymous }
  else
    let headerParts := r.authHeader.splitOn " "
    if !(headerParts.length == 2 && headerParts.getD 0 "" == "Bearer") then
      (st1, .ok .invalidAuthToken)
    else
      let token := headerParts.getD 1 ""
      if !validateTokenPlaintext token then (st1, .ok .invalidAuthToken)
      else
        match userGetForToken st1.users st1.tokens scopeAuthentication token st1.now with
        | .error .recordNotFound => (st1, .ok .invalidAuthToken)
        | .error _ => (st1, .ok .serverError)
        | .ok u => next st1 { r with ctxUser := some (.known u) }

/-- requireAuthenticatedUser: reads the context user (panicking when the
slot is empty) and rejects the anonymous identity with the 401
authentication-required response. -/
def requireAuthenticatedUserMW (next : Handler) : Handler := fun st r =>
  match contextGetUser r with
  | none => (st, .error panicMissingUser)
  | some user =>
      if ctxIsAnonymous user then (st, .ok .authenticationRequired)
      else next st r

/-- requireActivatedUser: rejects a non-activated user with the 403
inactive-account response; wraps requireAuthenticatedUser. -/
def requireActivatedUserMW (next : Handler) : Handler :=
  requireAuthenticatedUserMW (fun st r =>
    match contextGetUser r with
    | none => (st, .error panicMissingUser)
    | some user =>
        if !ctxActivated user then (st, .ok .inactiveAccount)
        else next st r)

/-- requirePermission: loads the user's permission set and requires
membership of the route's capability, rejecting with the 403
not-permitted response; wraps requireActivatedUser.  Entering the gate
is the permGate trace stage. -/
def requirePermissionMW (code : String) (next : Handler) : Handler := fun st r =>
  requireActivatedUserMW (fun st2 r2 =>
    match contextGetUser r2 with
    | none => (st2, .error panicMissingUser)
    | some user =>
        let permissions := getAllForUser st2.perms (ctxID user)
        if !permissionsInclude permissions code then (st2, .ok .notPermitted)
        else next st2 r2) (mark st .permGate) r

/-- Increment the per-status-code response counter. -/
def bumpStatus (m : List (Nat × Nat)) (code : Nat) : List (Nat × Nat) :=
  match m.lookup code with
  | none => (code, 1) :: m
  | some k => (code, k + 1) :: m.filter (fun p => !(p.1 == code))

/-- metrics: counts the request, runs the chain, counts the response by
status bucket.  (Defined in middleware.go; note routes() below does not
install it.)  A panic unwinds past the post-processing, as it does
through httpsnoop. -/
def metricsMW (next : Handler) : Handler := fun st r =>
  let st1 := mark st .metrics
  let st2 := { st1 with reqReceived := st1.reqReceived + 1 }
  let out := next st2 r
  match out.2 with
  | .error e => (out.1, .error e)
  | .ok resp =>
      ({ out.1 with respSent := out.1.respSent + 1,
                    statusCounts := bumpStatus out.1.statusCounts resp.status },
       .ok resp)

/-- A resource handler reaching execution (handler bodies are outside
the pipeline specification; none of them reads the context user). -/
def endpointH (name : String) : Handler := fun st _ =>
  (mark st .handler, .ok (.handled name))

def healthcheckH : Handler := fun st _ =>
  (mark st .handler, .ok .healthcheckInfo)

/-- Does the path match any registered route pattern (for the router's
405 versus 404 distinction)? -/
def pathHasRoute : List String → Bool
  | ["v1", "healthcheck"] => true
  | ["v1", "movies"] => true
  | ["v1", "movies", _] => true
  | ["v1", "users"] => true
  | ["v1", "users", "activated"] => true
  | ["v1", "tokens", "authentication"] => true
  | _ => false

/-- The registered endpoints of the routes() dispatch table. -/
inductive RouteKind where
  | healthcheck
  | movieCreate
  | movieShow
  | movieUpdateR
  | movieDeleteR
  | movieList
  | userRegister
  | userActivate
  | tokenCreate
  | unrouted
deriving DecidableEq

/-- The httprouter lookup: which registered (method, pattern) pair the
request matches. -/
def routeOf : String → List String → RouteKind
  | "GET", ["v1", "healthcheck"] => .healthcheck
  | "POST", ["v1", "movies"] => .movieCreate
  | "GET", ["v1", "movies", _] => .movieShow
  | "PATCH", ["v1", "movies", _] => .movieUpdateR
  | "DELETE", ["v1", "movies", _] => .movieDeleteR
  | "GET", ["v1", "movies"] => .movieList
  | "POST", ["v1", "users"] => .userRegister
  | "PUT", ["v1", "users", "activated"] => .userActivate
  | "POST", ["v1", "tokens", "authentication"] => .tokenCreate
  | _, _ => .unrouted

/-- The httprouter dispatch of routes(): the movie endpoints are wrapped
in requirePermission with their capability; the user and token endpoints
are open; an unrouted request gets the 405 or 404 handler. -/
def routerH : Handler := fun st r =>
  match routeOf r.method r.path with
  | .healthcheck => healthcheckH st r
  | .movieCreate => requirePermissionMW "movies:write" (endpointH "createMovie") st r
  | .movieShow => requirePermissionMW "movies:read" (endpointH "showMovie") st r
  | .movieUpdateR => requirePermissionMW "movies:write" (endpointH "updateMovie") st r
  | .movieDeleteR => requirePermissionMW "movies:write" (endpointH "deleteMovie") st r
  | .movieList => requirePermissionMW "movies:read" (endpointH "listMovies") st r
  | .userRegister => endpointH "registerUser" st r
  | .userActivate => endpointH "activateUser" st r
  | .tokenCreate => endpointH "createAuthenticationToken" st r
  | .unrouted =>
      if pathHasRoute r.path then (st, .ok .methodNotAllowed)
      else (st, .ok .notFoundResp)

/-- The argument of recoverPanic in routes():
enableCORS(rateLimit(authenticate(router))). -/
def routesInner : Handler := enableCORSMW (rateLimitMW (authenticateMW routerH))

/-- The full chain returned by routes():
recoverPanic(enableCORS(rateLimit(authenticate(router)))). -/
def routesChain : Handler := recoverPanicMW routesInner

/-- Is the request for one of the permission-gated (movie) routes? -/
def isGatedRoute (r : Req) : Bool :=
  match routeOf r.method r.path with
  | .movieCreate => true
  | .movieShow => true
  | .movieUpdateR => true
  | .movieDeleteR => true
  | .movieList => true
  | _ => false

/-! ### The optimistic-concurrency precondition of updateMovieHandler

The handler fragment guarding the update (movies handlers file): when
the X-Expected-Version header is non-empty, compare
strconv.FormatInt(int64(movie.Version), 32) with the header and
short-circuit to the edit-conflict response on inequality.  Returns true
when the handler short-circuits with the conflict. -/
def xExpectedVersionConflict (movieVersion : Nat) (header : String) : Bool :=
  if !(header == "") then
    if !(goFormatBase32 movieVersion == header) then true else false
  else false

/-! ### Concrete fixtures for closed statements -/

/-- A baseline state over a given configuration: empty stores, counters
at zero. -/
def st0 (cfg : Config) : St :=
  { cfg, users := [], tokens := [], perms := [], clients := [], now := 0,
    reqReceived := 0, respSent := 0, statusCounts := [], trace := [] }

/-- A plain healthcheck request. -/
def req0 : Req :=
  { method := "GET", path := ["v1", "healthcheck"], remoteAddr := "1.2.3.4:8080",
    origin := "", acrMethod := "", authHeader := "", ctxUser := none }

/-- An anonymous request (no Authorization header) for the
permission-gated POST /v1/movies route. -/
def reqAnonGated : Req :=
  { method := "POST", path := ["v1", "movies"], remoteAddr := "1.2.3.4:8080",
    origin := "", acrMethod := "", authHeader := "", ctxUser := none }

/-- A probe handler recording that the chain forwarded the request. -/
def probeH : Handler := fun st _ => (st, .ok (.handled "probe"))

end MovieGo

namespace MovieGo

/-! ## Supporting lemmas -/

theorem b32Tail_length (bs : List Nat) :
    (b32Tail bs).length = (8 * bs.length + 4) / 5 := by
  simp [b32Tail]

theorem base32Groups_length : ∀ bs : List Nat,
    (base32Groups bs).length = (8 * bs.length + 4) / 5
  | [] => by simp [base32Groups, b32Tail_length]
  | [_] => by simp [base32Groups, b32Tail_length]
  | [_, _] => by simp [base32Groups, b32Tail_length]
  | [_, _, _] => by simp [base32Groups, b32Tail_length]
  | [_, _, _, _] => by simp [base32Groups, b32Tail_length]
  | a :: b :: c :: d :: e :: rest => by
      have ih := base32Groups_length rest
      simp [base32Groups, b32Tail_length, ih]
      omega

theorem base32NoPad_length (bs : List Nat) :
    (base32NoPad bs).length = (8 * bs.length + 4) / 5 := by
  simp [base32NoPad, String.length, base32Groups_length]

/-! ## Claims -/

/-- C1: the claim states that disabling rate limiting via configuration
bypasses the limiter check while enabling it applies the per-client
token-bucket check.  The code has the guard inverted
(`if !app.config.limiter.enabled` wraps the whole check), contradicting
its own comment and the limiter-enabled flag documentation: with the
limiter disabled and an exhausted bucket (burst 0) the request is
short-circuited with the rate-limit-exceeded response, and with the
limiter enabled the same exhausted bucket is ignored and the request is
forwarded. -/
theorem c1_rate_limit_toggle_inverted :
    (rateLimitMW probeH (st0 ⟨false, 0, []⟩) req0).2 = .ok .rateLimitExceeded ∧
    (rateLimitMW probeH (st0 ⟨true, 0, []⟩) req0).2 = .ok (.handled "probe") :=
  ⟨rfl, rfl⟩

/-- C4: the claim states the X-Expected-Version precondition compares
the header against the decimal string of the current version.  The
handler formats the version with strconv.FormatInt(-, 32): at version
10 the canonical decimal header "10" is rejected with an edit conflict
(the code renders version 10 as "a"), and the non-decimal header "a" is
accepted. -/
theorem c4_version_precondition_base32 :
    xExpectedVersionConflict 10 "10" = true ∧
    Nat.repr 10 = "10" ∧
    goFormatBase32 10 = "a" ∧
    xExpectedVersionConflict 10 "a" = false := by
  decide

/-- C9: password.Matches returns (false, nil) on a bcrypt mismatch,
(true, nil) on success, propagates any other comparison error, and an
error is returned only when the comparison itself failed. -/
theorem c9_password_mismatch_is_normal_false :
    passwordMatches .mismatch = (false, none) ∧
    passwordMatches .matched = (true, none) ∧
    (∀ e, passwordMatches (.failure e) = (false, some e)) ∧
    (∀ cmp : BcryptOutcome, (passwordMatches cmp).2 ≠ none →
        ∃ e, cmp = .failure e) := by
  refine ⟨rfl, rfl, fun e => rfl, ?_⟩
  intro cmp hne
  cases cmp with
  | matched => simp [passwordMatches] at hne
  | mismatch => simp [passwordMatches] at hne
  | failure e => exact ⟨e, rfl⟩

theorem c9_witness :
    passwordMatches (.failure "entropy") = (false, some "entropy") ∧
    ∃ e, BcryptOutcome.failure "entropy" = .failure e :=
  ⟨c9_password_mismatch_is_normal_false.2.2.1 "entropy",
   c9_password_mismatch_is_normal_false.2.2.2 (.failure "entropy") (by decide)⟩

theorem movieGet_of_no_match (db : List MovieRow) (id : Int)
    (h : ∀ r ∈ db, ¬(r.id == id) = true) :
    movieGet db id = .error .recordNotFound := by
  unfold movieGet
  split
  · rfl
  · rw [List.find?_eq_none.mpr h]

/-- C7: a Get on an ID with no stored row yields the distinguished
record-not-found error (not a generic failure); a Delete on such an ID
yields record-not-found and leaves the table unchanged; and a Delete
followed by a Get on the same ID always yields record-not-found. -/
theorem c7_not_found_contract :
    (∀ (db : List MovieRow) (id : Int), (∀ r ∈ db, r.id ≠ id) →
        movieGet db id = .error .recordNotFound ∧
        movieDelete db id = (db, .error .recordNotFound)) ∧
    (∀ (db : List MovieRow) (id : Int),
        movieGet (movieDelete db id).1 id = .error .recordNotFound) ∧
    (∀ s, DataErr.recordNotFound ≠ DataErr.otherFailure s) := by
  have hmem : ∀ (db : List MovieRow) (id : Int), (∀ r ∈ db, r.id ≠ id) →
      ∀ r ∈ db, ¬(r.id == id) = true := by
    intro db id h r hr
    simpa using h r hr
  refine ⟨?_, ?_, fun s h => by cases h⟩
  · intro db id h
    refine ⟨movieGet_of_no_match db id (hmem db id h), ?_⟩
    unfold movieDelete
    split
    · rfl
    · have hfil : db.filter (fun r => !(r.id == id)) = db :=
        List.filter_eq_self.mpr (by
          intro r hr
          simpa using h r hr)
      rw [hfil]
      simp
  · intro db id
    unfold movieDelete
    split
    · next hlt => unfold movieGet; rw [if_pos hlt]
    · next hge =>
        set remaining := db.filter (fun r => !(r.id == id)) with hrem
        by_cases hlen : remaining.length = db.length
        · rw [if_pos hlen]
          have hall : ∀ r ∈ db, (fun r : MovieRow => !(r.id == id)) r = true := by
            have hsub : remaining.Sublist db := List.filter_sublist db
            have heq : remaining = db := hsub.eq_of_length hlen
            intro r hr
            have := List.filter_eq_self.mp heq r hr
            exact this
          refine movieGet_of_no_match db id ?_
          intro r hr
          have := hall r hr
          simp at this
          simp [this]
        · rw [if_neg hlen]
          refine movieGet_of_no_match remaining id ?_
          intro r hr
          have := List.of_mem_filter hr
          simp at this
          simp [this]

theorem movie_find?_map_updated (db : List MovieRow) (m r : MovieRow)
    (hnd : (db.map MovieRow.id).Nodup) (hr : r ∈ db)
    (hid : r.id = m.id) (hver : r.version = m.version) :
    (db.map (fun x => if x.id == m.id && x.version == m.version then
        { x with title := m.title, year := m.year, runtime := m.runtime,
                 genres := m.genres, version := x.version + 1 } else x)).find?
      (fun x => x.id == m.id) =
    some { r with title := m.title, year := m.year, runtime := m.runtime,
                  genres := m.genres, version := r.version + 1 } := by
  induction db with
  | nil => cases hr
  | cons a tl ih =>
      rw [List.map_cons] at hnd
      have hnd2 := List.nodup_cons.mp hnd
      by_cases haid : a.id = m.id
      · have hra : r = a := by
          rcases List.mem_cons.mp hr with heq | hrtl
          · exact heq
          · exact absurd (List.mem_map.mpr ⟨r, hrtl, by rw [hid, haid]⟩) hnd2.1
        have hpred : (a.id == m.id && a.version == m.version) = true := by
          rw [← hra]
          simp [hid, hver]
        rw [List.map_cons, if_pos hpred]
        rw [List.find?_cons_of_pos _ (by simp [haid])]
        rw [hra]
      · have hpred : ¬((a.id == m.id && a.version == m.version) = true) := by
          simp [haid]
        have hrtl : r ∈ tl := by
          rcases List.mem_cons.mp hr with heq | h2
          · exact absurd (heq ▸ hid) haid
          · exact h2
        rw [List.map_cons, if_neg hpred]
        rw [List.find?_cons_of_neg _ (by simp [haid])]
        exact ih hnd2.2 hrtl

/-- C5: for both versioned record types, Update applies only to the row
matching the record's ID and last-known version; with no matching
(ID, version) pair it reports the edit conflict and leaves the table
unchanged; a successful update increments the stored version by exactly
one, returns that new version, and preserves every other row. -/
theorem c5_update_version_contract :
    (∀ (db : List MovieRow) (m : MovieRow),
        (∀ r ∈ db, ¬(r.id = m.id ∧ r.version = m.version)) →
        movieUpdate db m = (db, .error .editConflict)) ∧
    (∀ (db : List MovieRow) (m r : MovieRow),
        (db.map MovieRow.id).Nodup → r ∈ db →
        r.id = m.id → r.version = m.version → 1 ≤ m.id →
        (movieUpdate db m).2 = .ok (m.version + 1) ∧
        movieGet (movieUpdate db m).1 m.id =
          .ok { r with title := m.title, year := m.year, runtime := m.runtime,
                       genres := m.genres, version := m.version + 1 } ∧
        (∀ r2 ∈ db, r2.id ≠ m.id → r2 ∈ (movieUpdate db m).1)) ∧
    (∀ (db : List UserRow) (u : UserRow),
        (∀ r ∈ db, ¬(r.id = u.id ∧ r.version = u.version)) →
        userUpdate db u = (db, .error .editConflict)) ∧
    (∀ (db : List UserRow) (u r : UserRow),
        r ∈ db → r.id = u.id → r.version = u.version →
        (∀ r2 ∈ db, r2.id ≠ u.id → r2.email ≠ u.email) →
        (userUpdate db u).2 = .ok (u.version + 1) ∧
        { r with name := u.name, email := u.email,
                 passwordHash := u.passwordHash, activated := u.activated,
                 version := u.version + 1 } ∈ (userUpdate db u).1 ∧
        (∀ r2 ∈ db, r2.id ≠ u.id → r2 ∈ (userUpdate db u).1)) := by
  refine ⟨?_, ?_, ?_, ?_⟩
  · intro db m h
    unfold movieUpdate
    have hany : db.any (fun r => r.id == m.id && r.version == m.version) = false := by
      rw [List.any_eq_false]
      intro r hr
      have := h r hr
      simp only [Bool.and_eq_true, beq_iff_eq]
      tauto
    rw [hany]
    simp
  · intro db m r hnd hr hid hver hpos
    have hany : db.any (fun x => x.id == m.id && x.version == m.version) = true :=
      List.any_eq_true.mpr ⟨r, hr, by simp [hid, hver]⟩
    have hupd : movieUpdate db m =
        (db.map (fun x => if x.id == m.id && x.version == m.version then
            { x with title := m.title, year := m.year, runtime := m.runtime,
                     genres := m.genres, version := x.version + 1 } else x),
         .ok (m.version + 1)) := by
      unfold movieUpdate
      rw [hany]
      simp
    refine ⟨by rw [hupd], ?_, ?_⟩
    · rw [hupd]
      unfold movieGet
      rw [if_neg (by omega)]
      rw [movie_find?_map_updated db m r hnd hr hid hver]
      rw [hver]
    · intro r2 hr2 hne
      rw [hupd]
      refine List.mem_map.mpr ⟨r2, hr2, ?_⟩
      rw [if_neg (by simp [hne])]
  · intro db u h
    unfold userUpdate
    have hany : db.any (fun r => r.id == u.id && r.version == u.version) = false := by
      rw [List.any_eq_false]
      intro r hr
      have := h r hr
      simp only [Bool.and_eq_true, beq_iff_eq]
      tauto
    rw [hany]
    simp
  · intro db u r hr hid hver hmail
    have hany : db.any (fun x => x.id == u.id && x.version == u.version) = true :=
      List.any_eq_true.mpr ⟨r, hr, by simp [hid, hver]⟩
    have hdup : db.any (fun x => !(x.id == u.id) && x.email == u.email) = false := by
      rw [List.any_eq_false]
      intro x hx
      by_cases hxi : x.id = u.id
      · simp [hxi]
      · simp [hxi, hmail x hx hxi]
    have hupd : userUpdate db u =
        (db.map (fun x => if x.id == u.id && x.version == u.version then
            { x with name := u.name, email := u.email,
                     passwordHash := u.passwordHash, activated := u.activated,
                     version := x.version + 1 } else x),
         .ok (u.version + 1)) := by
      unfold userUpdate
      rw [hany, hdup]
      simp
    refine ⟨by rw [hupd], ?_, ?_⟩
    · rw [hupd]
      refine List.mem_map.mpr ⟨r, hr, ?_⟩
      rw [if_pos (by simp [hid, hver])]
      rw [hver]
    · intro r2 hr2 hne
      rw [hupd]
      refine List.mem_map.mpr ⟨r2, hr2, ?_⟩
      rw [if_neg (by simp [hne])]

theorem c5_witness :
    movieUpdate [⟨1, 0, "t", 2000, 100, ["d"], 3⟩] ⟨2, 0, "u", 2001, 101, ["e"], 3⟩ =
      ([⟨1, 0, "t", 2000, 100, ["d"], 3⟩], .error .editConflict) ∧
    (movieUpdate [⟨1, 0, "t", 2000, 100, ["d"], 3⟩] ⟨1, 0, "u", 2001, 101, ["e"], 3⟩).2 =
      .ok 4 ∧
    movieGet (movieUpdate [⟨1, 0, "t", 2000, 100, ["d"], 3⟩]
        ⟨1, 0, "u", 2001, 101, ["e"], 3⟩).1 1 = .ok ⟨1, 0, "u", 2001, 101, ["e"], 4⟩ ∧
    userUpdate [⟨1, 0, "n", "a@b", [7], false, 2⟩] ⟨2, 0, "n2", "c@d", [8], true, 2⟩ =
      ([⟨1, 0, "n", "a@b", [7], false, 2⟩], .error .editConflict) ∧
    (userUpdate [⟨1, 0, "n", "a@b", [7], false, 2⟩]
        ⟨1, 0, "n2", "c@d", [8], true, 2⟩).2 = .ok 3 ∧
    (⟨1, 0, "n2", "c@d", [8], true, 3⟩ : UserRow) ∈
      (userUpdate [⟨1, 0, "n", "a@b", [7], false, 2⟩]
        ⟨1, 0, "n2", "c@d", [8], true, 2⟩).1 := by
  have h2 := c5_update_version_contract.2.1 [⟨1, 0, "t", 2000, 100, ["d"], 3⟩]
    ⟨1, 0, "u", 2001, 101, ["e"], 3⟩ ⟨1, 0, "t", 2000, 100, ["d"], 3⟩
    (by decide) (by decide) rfl rfl (by decide)
  have h4 := c5_update_version_contract.2.2.2 [⟨1, 0, "n", "a@b", [7], false, 2⟩]
    ⟨1, 0, "n2", "c@d", [8], true, 2⟩ ⟨1, 0, "n", "a@b", [7], false, 2⟩
    (by decide) rfl rfl (by decide)
  exact ⟨c5_update_version_contract.1 _ _ (by decide), h2.1, h2.2.1,
    c5_update_version_contract.2.2.1 _ _ (by decide), h4.1, h4.2.1⟩

/-- C6: issuing a token and immediately resolving its plaintext under
the same scope returns the originating user; resolving once the expiry
timestamp is reached or passed fails with record-not-found; resolving
under any other scope also fails with record-not-found.  The hypotheses
say the issuing user is the one its ID resolves to and that no stored
token already carries the fresh hash. -/
theorem c6_token_roundtrip :
    ∀ (users : List UserRow) (tokens : List TokenRow) (u : UserRow)
      (randomBytes : List Nat) (now ttl : Int) (scope : String),
      0 < ttl →
      users.find? (fun x => x.id == u.id) = some u →
      (∀ t ∈ tokens,
          t.hash ≠ (generateToken randomBytes now u.id ttl scope).hash) →
      userGetForToken users (tokenNew tokens randomBytes now u.id ttl scope).2
          scope (tokenNew tokens randomBytes now u.id ttl scope).1.plaintext now =
        .ok u ∧
      (∀ later : Int,
          (tokenNew tokens randomBytes now u.id ttl scope).1.expiry ≤ later →
          userGetForToken users (tokenNew tokens randomBytes now u.id ttl scope).2
              scope (tokenNew tokens randomBytes now u.id ttl scope).1.plaintext
              later =
            .error .recordNotFound) ∧
      (∀ otherScope : String, otherScope ≠ scope →
          userGetForToken users (tokenNew tokens randomBytes now u.id ttl scope).2
              otherScope
              (tokenNew tokens randomBytes now u.id ttl scope).1.plaintext now =
            .error .recordNotFound) := by
  intro users tokens u randomBytes now ttl scope httl hu hfresh
  have hplain : (tokenNew tokens randomBytes now u.id ttl scope).1.plaintext =
      base32NoPad randomBytes := rfl
  have hhash : (generateToken randomBytes now u.id ttl scope).hash =
      sha256Bytes (strBytes (base32NoPad randomBytes)) := rfl
  have hold : ∀ later : Int,
      tokens.find? (fun t =>
          t.hash == sha256Bytes (strBytes (base32NoPad randomBytes)) &&
          t.scope == scope && decide (later < t.expiry)) = none := by
    intro later
    refine List.find?_eq_none.mpr ?_
    intro t ht
    have := hfresh t ht
    rw [hhash] at this
    simp [this]
  have holdS : ∀ (sc : String) (later : Int),
      tokens.find? (fun t =>
          t.hash == sha256Bytes (strBytes (base32NoPad randomBytes)) &&
          t.scope == sc && decide (later < t.expiry)) = none := by
    intro sc later
    refine List.find?_eq_none.mpr ?_
    intro t ht
    have := hfresh t ht
    rw [hhash] at this
    simp [this]
  refine ⟨?_, ?_, ?_⟩
  · show userGetForToken users
        (tokens ++ [{ hash := sha256Bytes (strBytes (base32NoPad randomBytes)),
                      userID := u.id, expiry := now + ttl, scope := scope }])
        scope (base32NoPad randomBytes) now = .ok u
    unfold userGetForToken
    dsimp only
    rw [List.find?_append, hold now]
    rw [List.find?_cons_of_pos _ (by simp; omega)]
    simp [hu]
  · intro later hlater
    show userGetForToken users
        (tokens ++ [{ hash := sha256Bytes (strBytes (base32NoPad randomBytes)),
                      userID := u.id, expiry := now + ttl, scope := scope }])
        scope (base32NoPad randomBytes) later = .error .recordNotFound
    have hl : now + ttl ≤ later := hlater
    unfold userGetForToken
    dsimp only
    rw [List.find?_append, hold later]
    rw [List.find?_cons_of_neg _ (by simp; omega)]
    rfl
  · intro otherScope hsc
    show userGetForToken users
        (tokens ++ [{ hash := sha256Bytes (strBytes (base32NoPad randomBytes)),
                      userID := u.id, expiry := now + ttl, scope := scope }])
        otherScope (base32NoPad randomBytes) now = .error .recordNotFound
    unfold userGetForToken
    dsimp only
    rw [List.find?_append, holdS otherScope now]
    rw [List.find?_cons_of_neg _ (by
      simp
      intro h
      exact absurd h.symm hsc)]
    rfl

theorem c6_witness :
    userGetForToken [⟨1, 0, "n", "a@b", [7], true, 1⟩]
        (tokenNew [] (List.replicate 16 0) 0 1 5 "authentication").2
        "authentication"
        (tokenNew [] (List.replicate 16 0) 0 1 5 "authentication").1.plaintext 0 =
      .ok ⟨1, 0, "n", "a@b", [7], true, 1⟩ ∧
    userGetForToken [⟨1, 0, "n", "a@b", [7], true, 1⟩]
        (tokenNew [] (List.replicate 16 0) 0 1 5 "authentication").2
        "authentication"
        (tokenNew [] (List.replicate 16 0) 0 1 5 "authentication").1.plaintext 9 =
      .error .recordNotFound ∧
    userGetForToken [⟨1, 0, "n", "a@b", [7], true, 1⟩]
        (tokenNew [] (List.replicate 16 0) 0 1 5 "authentication").2
        "activation"
        (tokenNew [] (List.replicate 16 0) 0 1 5 "authentication").1.plaintext 0 =
      .error .recordNotFound := by
  have h := c6_token_roundtrip [⟨1, 0, "n", "a@b", [7], true, 1⟩] []
    ⟨1, 0, "n", "a@b", [7], true, 1⟩ (List.replicate 16 0) 0 5 "authentication"
    (by decide) (by decide) (by simp)
  exact ⟨h.1, h.2.1 9 (by decide), h.2.2 "activation" (by decide)⟩

theorem c8_string_ne_empty_of_length {s : String} (h : s.length = 26) :
    (s == "") = false := by
  cases hb : s == ""
  · rfl
  · have : s = "" := eq_of_beq hb
    rw [this] at h
    cases h

/-- C8: token issuance builds the plaintext from the supplied 16 random
bytes as a 26-character base32 string satisfying ValidateTokenPlaintext,
hashes it with SHA-256, and persists exactly the row
(hash, userID, expiry = now + ttl, scope) - the plaintext itself has no
column in the stored row. -/
theorem c8_token_issuance_shape :
    ∀ (randomBytes : List Nat) (now userID ttl : Int) (scope : String)
      (db : List TokenRow),
      randomBytes.length = 16 →
      (generateToken randomBytes now userID ttl scope).plaintext.length = 26 ∧
      validateTokenPlaintext
        (generateToken randomBytes now userID ttl scope).plaintext = true ∧
      (generateToken randomBytes now userID ttl scope).hash =
        sha256Bytes (strBytes (generateToken randomBytes now userID ttl scope).plaintext) ∧
      (generateToken randomBytes now userID ttl scope).userID = userID ∧
      (generateToken randomBytes now userID ttl scope).expiry = now + ttl ∧
      (generateToken randomBytes now userID ttl scope).scope = scope ∧
      tokenNew db randomBytes now userID ttl scope =
        (generateToken randomBytes now userID ttl scope,
         db ++ [{ hash := (generateToken randomBytes now userID ttl scope).hash,
                  userID := userID, expiry := now + ttl, scope := scope }]) := by
  intro randomBytes now userID ttl scope db hlen
  have hplen : (generateToken randomBytes now userID ttl scope).plaintext.length = 26 := by
    show (base32NoPad randomBytes).length = 26
    rw [base32NoPad_length, hlen]
  refine ⟨hplen, ?_, rfl, rfl, rfl, rfl, rfl⟩
  unfold validateTokenPlaintext
  rw [c8_string_ne_empty_of_length hplen]
  simp [hplen]

theorem c8_witness :
    (List.replicate 16 0).length = 16 ∧
    (generateToken (List.replicate 16 0) 0 1 5 "activation").plaintext.length = 26 ∧
    validateTokenPlaintext
      (generateToken (List.replicate 16 0) 0 1 5 "activation").plaintext = true := by
  have h := c8_token_issuance_shape (List.replicate 16 0) 0 1 5 "activation" []
    (by decide)
  exact ⟨by decide, h.1, h.2.1⟩

theorem c7_witness :
    (movieGet [] 7 = .error .recordNotFound ∧
      movieDelete [] 7 = ([], .error .recordNotFound)) ∧
    movieGet (movieDelete [] 7).1 7 = .error .recordNotFound ∧
    DataErr.recordNotFound ≠ DataErr.otherFailure "io" :=
  ⟨c7_not_found_contract.1 [] 7 (by simp),
   c7_not_found_contract.2.1 [] 7,
   c7_not_found_contract.2.2 "io"⟩


theorem authenticateMW_no_header (next : Handler) (st : St) (r : Req)
    (h : r.authHeader = "") :
    authenticateMW next st r =
      next (mark st .authenticate) { r with ctxUser := some .anonymous } := by
  unfold authenticateMW
  dsimp only
  rw [if_pos (by simp [h])]

theorem rateLimitMW_enabled (next : Handler) (st : St) (r : Req)
    (h : st.cfg.limiterEnabled = true) :
    rateLimitMW next st r = next (mark st .rateLimit) r := by
  unfold rateLimitMW
  dsimp only
  rw [if_neg (by simp [mark, h])]

theorem enableCORSMW_not_options (next : Handler) (st : St) (r : Req)
    (h : ¬(r.method = "OPTIONS")) :
    enableCORSMW next st r = next (mark st .cors) r := by
  unfold enableCORSMW
  dsimp only
  by_cases ho :
      ((!(r.origin == "")) && (mark st .cors).cfg.trustedOrigins.contains r.origin) = true
  · rw [if_pos ho, if_neg (by simp [h])]
  · rw [if_neg ho]

theorem gate_anonymous (code : String) (next : Handler) (st : St) (r : Req)
    (h : r.ctxUser = some .anonymous) :
    requirePermissionMW code next st r = (mark st .permGate, .ok .authenticationRequired) := by
  unfold requirePermissionMW requireActivatedUserMW requireAuthenticatedUserMW contextGetUser
  rw [h]
  simp [ctxIsAnonymous]

theorem routeOf_options (p : List String) : routeOf "OPTIONS" p = .unrouted := by
  unfold routeOf
  split <;> simp_all

theorem routerH_gated_anonymous (st : St) (r : Req) (hg : isGatedRoute r = true)
    (h : r.ctxUser = some .anonymous) :
    routerH st r = (mark st .permGate, .ok .authenticationRequired) := by
  unfold routerH
  unfold isGatedRoute at hg
  cases hk : routeOf r.method r.path <;> rw [hk] at hg <;>
    first
      | exact gate_anonymous _ _ _ _ h
      | exact absurd hg (by decide)


/-- C2 counterexample: a request with no Authorization header for the
permission-gated POST /v1/movies route is answered with the 401
authentication-required response produced by the require-authenticated
layer, not with the 403 not-permitted (authorization-failure)
response the claim asserts. -/
theorem c2_counterexample_anonymous_gets_401 :
    (routesChain (st0 ⟨true, 4, []⟩) reqAnonGated).2 = .ok .authenticationRequired ∧
    Resp.authenticationRequired ≠ Resp.notPermitted ∧
    Resp.status .authenticationRequired = 401 ∧
    Resp.status .notPermitted = 403 :=
  ⟨rfl, by decide, rfl, rfl⟩

/-- C2 (amended): a request with no Authorization header is annotated
with the anonymous identity by the authenticate stage and proceeds; when
such a request targets a permission-gated route (with the limiter flag
at its enabled default, under which the check is bypassed), it is
rejected by the authorization layer's require-authenticated check with
the 401 authentication-required response - the permission set is never
consulted - rather than by the authenticate stage. -/
theorem c2_anonymous_gated_route :
    (∀ (next : Handler) (st : St) (r : Req), r.authHeader = "" →
        authenticateMW next st r =
          next (mark st .authenticate) { r with ctxUser := some .anonymous }) ∧
    (∀ (st : St) (r : Req), st.cfg.limiterEnabled = true →
        r.authHeader = "" → isGatedRoute r = true →
        (routesChain st r).2 = .ok .authenticationRequired) := by
  refine ⟨authenticateMW_no_header, ?_⟩
  intro st r hen hh hg
  have hm : ¬(r.method = "OPTIONS") := by
    intro hm
    unfold isGatedRoute at hg
    rw [hm, routeOf_options] at hg
    exact absurd hg (by decide)
  unfold routesChain recoverPanicMW
  dsimp only
  unfold routesInner
  rw [enableCORSMW_not_options _ _ _ hm]
  rw [rateLimitMW_enabled (authenticateMW routerH)
    (mark (mark st .recovery) .cors) r hen]
  rw [authenticateMW_no_header _ _ _ hh]
  rw [routerH_gated_anonymous
    (mark (mark (mark (mark st .recovery) .cors) .rateLimit) .authenticate)
    { r with ctxUser := some CtxUser.anonymous } (by exact hg) rfl]

theorem c2_witness :
    (routesChain (st0 ⟨true, 4, ["https://a"]⟩) reqAnonGated).2 =
      .ok .authenticationRequired :=
  c2_anonymous_gated_route.2 (st0 ⟨true, 4, ["https://a"]⟩) reqAnonGated
    (by decide) (by decide) (by decide)


theorem gate_endpoint_no_panic (code name : String) (st : St) (r : Req)
    (u : CtxUser) (hc : r.ctxUser = some u) :
    ∀ e, (requirePermissionMW code (endpointH name) st r).2 ≠ .error e := by
  intro e
  unfold requirePermissionMW requireActivatedUserMW requireAuthenticatedUserMW
  unfold contextGetUser endpointH
  dsimp only
  rw [hc]
  cases u <;> dsimp only [ctxIsAnonymous, ctxActivated] <;> (repeat' split) <;> simp_all

theorem routerH_no_panic (st : St) (r : Req) (u : CtxUser)
    (hc : r.ctxUser = some u) : ∀ e, (routerH st r).2 ≠ .error e := by
  intro e
  unfold routerH
  cases hk : routeOf r.method r.path <;> dsimp only <;>
    first
      | exact gate_endpoint_no_panic _ _ _ _ _ hc e
      | (split <;> simp)
      | simp [healthcheckH, endpointH]

theorem authenticate_router_no_panic (st : St) (r : Req) :
    ∀ e, (authenticateMW routerH st r).2 ≠ .error e := by
  intro e
  unfold authenticateMW
  dsimp only
  by_cases hh : (r.authHeader == "") = true
  · rw [if_pos hh]
    exact routerH_no_panic _ _ .anonymous rfl e
  · rw [if_neg hh]
    split
    · simp
    · split
      · simp
      · split
        · simp
        · simp
        · next u heq => exact routerH_no_panic _ _ (.known u) rfl e

theorem rate_auth_router_no_panic (st : St) (r : Req) :
    ∀ e, (rateLimitMW (authenticateMW routerH) st r).2 ≠ .error e := by
  intro e
  unfold rateLimitMW
  dsimp only
  split
  · split
    · simp
    · split
      · simp
      · exact authenticate_router_no_panic _ _ e
  · exact authenticate_router_no_panic _ _ e

/-- C10: the authenticate middleware always stores a user value in the
request context before the router runs, so on the chain composed in
routes() the contextGetUser accessor never reaches its panic branch: the
part of the pipeline wrapped by recoverPanic never produces a
propagating panic for a request arriving with an empty context slot. -/
theorem c10_context_user_panic_unreachable :
    ∀ (st : St) (r : Req), r.ctxUser = none →
      ∀ e, (routesInner st r).2 ≠ .error e := by
  intro st r _ e
  unfold routesInner enableCORSMW
  dsimp only
  split
  · split
    · simp
    · exact rate_auth_router_no_panic _ _ e
  · exact rate_auth_router_no_panic _ _ e

theorem c10_witness :
    (routesInner (st0 ⟨true, 4, []⟩) reqAnonGated).2 ≠ .error "missing user value" :=
  c10_context_user_panic_unreachable (st0 ⟨true, 4, []⟩) reqAnonGated rfl
    "missing user value"


theorem traceSpec_gate (code name : String) (st : St) (r : Req) :
    ∃ δ, (requirePermissionMW code (endpointH name) st r).1.trace = st.trace ++ δ ∧
      δ.Sublist [Stage.permGate, Stage.handler] ∧
      (requirePermissionMW code (endpointH name) st r).1.reqReceived = st.reqReceived ∧
      (requirePermissionMW code (endpointH name) st r).1.respSent = st.respSent ∧
      (requirePermissionMW code (endpointH name) st r).1.statusCounts = st.statusCounts := by
  unfold requirePermissionMW requireActivatedUserMW requireAuthenticatedUserMW
  unfold contextGetUser endpointH
  dsimp only
  cases hc : r.ctxUser with
  | none =>
      refine ⟨[Stage.permGate], ?_, by decide, ?_, ?_, ?_⟩ <;> simp [mark]
  | some u =>
      cases u with
      | anonymous =>
          refine ⟨[Stage.permGate], ?_, by decide, ?_, ?_, ?_⟩ <;>
            simp [mark, ctxIsAnonymous]
      | known u2 =>
          by_cases hact : u2.activated = true
          · by_cases hperm :
                permissionsInclude (getAllForUser st.perms u2.id) code = true
            · refine ⟨[Stage.permGate, Stage.handler], ?_, by decide, ?_, ?_, ?_⟩ <;>
                simp [mark, ctxIsAnonymous, ctxActivated, ctxID, hact, hperm]
            · refine ⟨[Stage.permGate], ?_, by decide, ?_, ?_, ?_⟩ <;>
                simp [mark, ctxIsAnonymous, ctxActivated, ctxID, hact, hperm]
          · refine ⟨[Stage.permGate], ?_, by decide, ?_, ?_, ?_⟩ <;>
              simp [mark, ctxIsAnonymous, ctxActivated, hact]

theorem traceSpec_router (st : St) (r : Req) :
    ∃ δ, (routerH st r).1.trace = st.trace ++ δ ∧
      δ.Sublist [Stage.permGate, Stage.handler] ∧
      (routerH st r).1.reqReceived = st.reqReceived ∧
      (routerH st r).1.respSent = st.respSent ∧
      (routerH st r).1.statusCounts = st.statusCounts := by
  unfold routerH
  cases hk : routeOf r.method r.path <;> dsimp only <;>
    first
      | exact traceSpec_gate _ _ st r
      | exact ⟨[Stage.handler], by simp [mark, healthcheckH, endpointH], by decide,
          rfl, rfl, rfl⟩
      | (split <;> exact ⟨[], by simp, by decide, rfl, rfl, rfl⟩)

theorem traceSpec_auth (st : St) (r : Req) :
    ∃ δ, (authenticateMW routerH st r).1.trace = st.trace ++ δ ∧
      δ.Sublist [Stage.authenticate, Stage.permGate, Stage.handler] ∧
      (authenticateMW routerH st r).1.reqReceived = st.reqReceived ∧
      (authenticateMW routerH st r).1.respSent = st.respSent ∧
      (authenticateMW routerH st r).1.statusCounts = st.statusCounts := by
  unfold authenticateMW
  dsimp only
  by_cases hh : (r.authHeader == "") = true
  · rw [if_pos hh]
    obtain ⟨δ, h1, h2, h3, h4, h5⟩ :=
      traceSpec_router (mark st .authenticate) { r with ctxUser := some .anonymous }
    refine ⟨Stage.authenticate :: δ, ?_, h2.cons₂ _, h3, h4, h5⟩
    rw [h1]
    simp [mark]
  · rw [if_neg hh]
    split
    · exact ⟨[Stage.authenticate], by simp [mark], by decide, rfl, rfl, rfl⟩
    · split
      · exact ⟨[Stage.authenticate], by simp [mark], by decide, rfl, rfl, rfl⟩
      · split
        · exact ⟨[Stage.authenticate], by simp [mark], by decide, rfl, rfl, rfl⟩
        · exact ⟨[Stage.authenticate], by simp [mark], by decide, rfl, rfl, rfl⟩
        · next u heq =>
            obtain ⟨δ, h1, h2, h3, h4, h5⟩ :=
              traceSpec_router (mark st .authenticate)
                { r with ctxUser := some (.known u) }
            refine ⟨Stage.authenticate :: δ, ?_, h2.cons₂ _, h3, h4, h5⟩
            rw [h1]
            simp [mark]

theorem traceSpec_rate (st : St) (r : Req) :
    ∃ δ, (rateLimitMW (authenticateMW routerH) st r).1.trace = st.trace ++ δ ∧
      δ.Sublist [Stage.rateLimit, Stage.authenticate, Stage.permGate, Stage.handler] ∧
      (rateLimitMW (authenticateMW routerH) st r).1.reqReceived = st.reqReceived ∧
      (rateLimitMW (authenticateMW routerH) st r).1.respSent = st.respSent ∧
      (rateLimitMW (authenticateMW routerH) st r).1.statusCounts = st.statusCounts := by
  unfold rateLimitMW
  dsimp only
  split
  · split
    · exact ⟨[Stage.rateLimit], by simp [mark], by decide, rfl, rfl, rfl⟩
    · split
      · exact ⟨[Stage.rateLimit], by simp [mark, setClient], by decide, rfl, rfl, rfl⟩
      · next ip rest heq =>
          obtain ⟨δ, h1, h2, h3, h4, h5⟩ := traceSpec_auth _ r
          refine ⟨Stage.rateLimit :: δ, ?_, h2.cons₂ _, h3, h4, h5⟩
          rw [h1]
          simp [mark, setClient]
  · obtain ⟨δ, h1, h2, h3, h4, h5⟩ := traceSpec_auth (mark st .rateLimit) r
    refine ⟨Stage.rateLimit :: δ, ?_, h2.cons₂ _, h3, h4, h5⟩
    rw [h1]
    simp [mark]

theorem traceSpec_inner (st : St) (r : Req) :
    ∃ δ, (routesInner st r).1.trace = st.trace ++ δ ∧
      δ.Sublist [Stage.cors, Stage.rateLimit, Stage.authenticate, Stage.permGate,
        Stage.handler] ∧
      (routesInner st r).1.reqReceived = st.reqReceived ∧
      (routesInner st r).1.respSent = st.respSent ∧
      (routesInner st r).1.statusCounts = st.statusCounts := by
  unfold routesInner enableCORSMW
  dsimp only
  split
  · split
    · exact ⟨[Stage.cors], by simp [mark], by decide, rfl, rfl, rfl⟩
    · obtain ⟨δ, h1, h2, h3, h4, h5⟩ := traceSpec_rate (mark st .cors) r
      refine ⟨Stage.cors :: δ, ?_, h2.cons₂ _, h3, h4, h5⟩
      rw [h1]
      simp [mark]
  · obtain ⟨δ, h1, h2, h3, h4, h5⟩ := traceSpec_rate (mark st .cors) r
    refine ⟨Stage.cors :: δ, ?_, h2.cons₂ _, h3, h4, h5⟩
    rw [h1]
    simp [mark]

theorem traceSpec_chain (st : St) (r : Req) :
    ∃ δ, (routesChain st r).1.trace = st.trace ++ δ ∧
      δ.Sublist [Stage.recovery, Stage.cors, Stage.rateLimit, Stage.authenticate,
        Stage.permGate, Stage.handler] ∧
      (routesChain st r).1.reqReceived = st.reqReceived ∧
      (routesChain st r).1.respSent = st.respSent ∧
      (routesChain st r).1.statusCounts = st.statusCounts := by
  unfold routesChain recoverPanicMW
  dsimp only
  obtain ⟨δ, h1, h2, h3, h4, h5⟩ := traceSpec_inner (mark st .recovery) r
  split <;>
    exact ⟨Stage.recovery :: δ, by rw [h1]; simp [mark], h2.cons₂ _, h3, h4, h5⟩


/-- C3 counterexample: a healthcheck request is fully processed by the
chain composed in routes() - which is
recoverPanic(enableCORS(rateLimit(authenticate(router)))) with no
metrics stage installed - yet the metrics counters remain zero, so not
every request and response is counted by the metrics stage. -/
theorem c3_counterexample_metrics_not_counted :
    (routesChain (st0 ⟨true, 4, []⟩) req0).2 = .ok .healthcheckInfo ∧
    (routesChain (st0 ⟨true, 4, []⟩) req0).1.reqReceived = 0 ∧
    (routesChain (st0 ⟨true, 4, []⟩) req0).1.respSent = 0 ∧
    (routesChain (st0 ⟨true, 4, []⟩) req0).1.statusCounts = [] :=
  ⟨rfl, rfl, rfl, rfl⟩

/-- C3 (amended): every request traverses the stages of the routes()
chain in the fixed order recovery, CORS, rate limit, authenticate,
per-route permission gate, handler (a short-circuiting stage ends the
traversal early); the metrics middleware is not part of the chain: no
stage trace contains it and the request/response counters are left
untouched for every request. -/
theorem c3_pipeline_order_and_no_metrics :
    ∀ (st : St) (r : Req), st.trace = [] →
      ((routesChain st r).1.trace).Sublist
        [Stage.recovery, Stage.cors, Stage.rateLimit, Stage.authenticate,
         Stage.permGate, Stage.handler] ∧
      Stage.metrics ∉ (routesChain st r).1.trace ∧
      (routesChain st r).1.reqReceived = st.reqReceived ∧
      (routesChain st r).1.respSent = st.respSent ∧
      (routesChain st r).1.statusCounts = st.statusCounts := by
  intro st r h0
  obtain ⟨δ, h1, h2, h3, h4, h5⟩ := traceSpec_chain st r
  rw [h0] at h1
  simp only [List.nil_append] at h1
  rw [h1]
  refine ⟨h2, ?_, h3, h4, h5⟩
  intro hmem
  have := h2.subset hmem
  simp at this

theorem c3_witness :
    ((routesChain (st0 ⟨true, 4, []⟩) reqAnonGated).1.trace).Sublist
      [Stage.recovery, Stage.cors, Stage.rateLimit, Stage.authenticate,
       Stage.permGate, Stage.handler] ∧
    (routesChain (st0 ⟨true, 4, []⟩) reqAnonGated).1.reqReceived =
      (st0 ⟨true, 4, []⟩).reqReceived :=
  ⟨(c3_pipeline_order_and_no_metrics (st0 ⟨true, 4, []⟩) reqAnonGated rfl).1,
   (c3_pipeline_order_and_no_metrics (st0 ⟨true, 4, []⟩) reqAnonGated rfl).2.2.1⟩

end MovieGo
